import Mathlib

/-!
Shallow embedding of the Meeting-Scheduler repository (`code.py`).

Timestamps are modelled as absolute seconds in the proleptic Gregorian
calendar (seconds since 0001-01-01 00:00:00, naive local time), which is
order- and difference-isomorphic to the Python `datetime` values as
the program uses them (comparison, `timedelta` addition/subtraction).
All values the program manipulates are non-negative, so `Nat` is used;
the two `timedelta` comparisons the source performs on a possibly inverted
interval (`end - start == 1h`, `end - start > 1h`) are both false in Python
(negative timedelta) and both false here (truncated subtraction gives 0),
so the embedding agrees with the source on inverted intervals as well.

The external collaborators (Google OAuth, the calendar read in
`fetch_calendar_events`, the network insert in `add_event_to_calendar`,
and the Streamlit UI) are outside the embedding: the event list that the
calendar read returns is passed in as a parameter, and the calendar write
is modelled by the request body the source constructs for it.
-/

namespace MeetingScheduler

/-- A raw calendar event record as returned by the external read:
`{summary, start: {dateTime}, end: {dateTime}}` with every field optional
(the chained `event.get(..).get(..)` lookup yields `None` when absent). -/
structure EventRecord where
  summary : Option String
  startDateTime : Option String
  endDateTime : Option String
deriving DecidableEq, Repr

/-- A calendar date (the `selected_date` coming from the date picker). -/
structure CivilDate where
  year : Nat
  month : Nat
  day : Nat
deriving DecidableEq, Repr

/-- Python truthiness of an optional string: `None` and `""` are falsy.
Models the `if start_time and end_time:` guard on line 81. -/
def pyTruthy : Option String → Bool
  | none => false
  | some s => s != ""

/-- The Python slice `s[:-6]`: all characters but the last six (empty when
the string has six or fewer characters). Lines 82-83 strip the UTC-offset
suffix this way before parsing. -/
def dropLast6 (s : String) : List Char :=
  s.toList.take (s.toList.length - 6)

/-- Value of a decimal digit character, `none` on a non-digit. -/
def digitVal (c : Char) : Option Nat :=
  if '0' ≤ c ∧ c ≤ '9' then some (c.toNat - 48) else none

/-- Exactly four digits, as the %Y directive of `strptime` requires. -/
def readYear : List Char → Option (Nat × List Char)
  | c1 :: c2 :: c3 :: c4 :: rest =>
    match digitVal c1, digitVal c2, digitVal c3, digitVal c4 with
    | some d1, some d2, some d3, some d4 => some (((d1 * 10 + d2) * 10 + d3) * 10 + d4, rest)
    | _, _, _, _ => none
  | _ => none

/-- One or two digits, read greedily, as the %m/%d/%H/%M/%S directives of
`strptime` match them. In the format %Y-%m-%dT%H:%M:%S every such field is
followed by a non-digit literal or the end of the string, so the greedy
two-digit read is the only one that can extend to a full match and the
regex backtracking in the CPython implementation never changes the outcome;
out-of-range two-digit reads are rejected by the value checks below exactly
where the regex alternation would have failed. -/
def readNum2 : List Char → Option (Nat × List Char)
  | c1 :: c2 :: rest =>
    match digitVal c1, digitVal c2 with
    | some d1, some d2 => some (d1 * 10 + d2, rest)
    | some d1, none => some (d1, c2 :: rest)
    | none, _ => none
  | [c1] =>
    match digitVal c1 with
    | some d1 => some (d1, [])
    | none => none
  | [] => none

/-- Consumes one expected literal character. -/
def expectChar (c : Char) : List Char → Option (List Char)
  | c1 :: rest => if c1 = c then some rest else none
  | [] => none

/-- Gregorian leap-year rule, as `datetime` uses. -/
def isLeapYear (y : Nat) : Bool :=
  y % 4 = 0 && (y % 100 != 0 || y % 400 = 0)

/-- Number of days in month `m` of year `y`. -/
def daysInMonth (y m : Nat) : Nat :=
  if m = 2 then (if isLeapYear y then 29 else 28)
  else if m = 4 ∨ m = 6 ∨ m = 9 ∨ m = 11 then 30
  else 31

/-- Days of year `y` strictly before month `m`. -/
def daysBeforeMonth (y m : Nat) : Nat :=
  let base :=
    if m = 1 then 0 else if m = 2 then 31 else if m = 3 then 59
    else if m = 4 then 90 else if m = 5 then 120 else if m = 6 then 151
    else if m = 7 then 181 else if m = 8 then 212 else if m = 9 then 243
    else if m = 10 then 273 else if m = 11 then 304 else 334
  if 3 ≤ m ∧ isLeapYear y then base + 1 else base

/-- Days from 0001-01-01 to the given date (the Python `date.toordinal`
value minus one). -/
def daysFromCivil (y m d : Nat) : Nat :=
  365 * (y - 1) + (y - 1) / 4 - (y - 1) / 100 + (y - 1) / 400
    + daysBeforeMonth y m + (d - 1)

/-- Absolute seconds of the naive local datetime `y-m-d h:mi:s`. -/
def dtSeconds (y m d h mi s : Nat) : Nat :=
  daysFromCivil y m d * 86400 + h * 3600 + mi * 60 + s

/-- Model of `datetime.datetime.strptime` with format %Y-%m-%dT%H:%M:%S:
`none` models the `ValueError` the call raises on a string that does not
fully match the format or denotes an invalid date/time (lines 82-83).
The whole input must be consumed (`strptime` rejects unconverted data), and
the range checks of the `datetime` constructor (year at least 1, valid
month, day within the month, hour/minute/second in range) are applied. -/
def strptimeISO (cs : List Char) : Option Nat :=
  match readYear cs with
  | none => none
  | some (y, cs) =>
  match expectChar '-' cs with
  | none => none
  | some cs =>
  match readNum2 cs with
  | none => none
  | some (m, cs) =>
  match expectChar '-' cs with
  | none => none
  | some cs =>
  match readNum2 cs with
  | none => none
  | some (d, cs) =>
  match expectChar 'T' cs with
  | none => none
  | some cs =>
  match readNum2 cs with
  | none => none
  | some (h, cs) =>
  match expectChar ':' cs with
  | none => none
  | some cs =>
  match readNum2 cs with
  | none => none
  | some (mi, cs) =>
  match expectChar ':' cs with
  | none => none
  | some cs =>
  match readNum2 cs with
  | none => none
  | some (s, cs) =>
    if cs = [] ∧ 1 ≤ y ∧ 1 ≤ m ∧ m ≤ 12 ∧ 1 ≤ d ∧ d ≤ daysInMonth y m
        ∧ h ≤ 23 ∧ mi ≤ 59 ∧ s ≤ 59 then
      some (dtSeconds y m d h mi s)
    else none

/-- Lines 79-84, for one record: `.ok none` when a timestamp is missing or
empty (the record is skipped), `.ok (some (s, t))` when both parse, and
`.error ()` when a present timestamp fails `strptime` — the `ValueError`
is unhandled in the source and aborts the whole computation. -/
def normalizeEvent (ev : EventRecord) : Except Unit (Option (Nat × Nat)) :=
  if pyTruthy ev.startDateTime && pyTruthy ev.endDateTime then
    match strptimeISO (dropLast6 (ev.startDateTime.getD "")),
          strptimeISO (dropLast6 (ev.endDateTime.getD "")) with
    | some s, some t => .ok (some (s, t))
    | _, _ => .error ()
  else .ok none

/-- The `for event in events` loop of lines 78-84: the occupied-slot pairs
in input order, or the propagated parse error. -/
def occupiedSlotsOf : List EventRecord → Except Unit (List (Nat × Nat))
  | [] => .ok []
  | ev :: rest =>
    match normalizeEvent ev with
    | .error e => .error e
    | .ok none => occupiedSlotsOf rest
    | .ok (some p) => (occupiedSlotsOf rest).map (p :: ·)

/-- Holds when the record makes the computation raise. -/
def eventFatal (ev : EventRecord) : Bool :=
  match normalizeEvent ev with
  | .error _ => true
  | .ok _ => false

/-- The busy pair a record contributes, if any. -/
def parsedPair (ev : EventRecord) : Option (Nat × Nat) :=
  match normalizeEvent ev with
  | .ok p => p
  | .error _ => none

/-- The ascending Python tuple order that `occupied_slots.sort()` on line 87
uses: lexicographic on `(start, end)`. -/
def tupleLe (a b : Nat × Nat) : Bool :=
  decide (a.1 < b.1) || (decide (a.1 = b.1) && decide (a.2 ≤ b.2))

/-- Working-hours start: `datetime.combine(selected_date, time(9, 0))` (line 71). -/
def workingStart (d : CivilDate) : Nat :=
  dtSeconds d.year d.month d.day 9 0 0

/-- Working-hours end: `datetime.combine(selected_date, time(17, 0))` (line 72). -/
def workingEnd (d : CivilDate) : Nat :=
  dtSeconds d.year d.month d.day 17 0 0

/-- Lines 90-95: the hourly grid `all_slots` over the working window. The
source builds this list and never reads it again; it is reproduced here for
completeness and plays no part in the result. -/
def allSlots (cur wend : Nat) : List (Nat × Nat) :=
  if h : cur < wend then (cur, cur + 3600) :: allSlots (cur + 3600) wend else []
termination_by wend - cur
decreasing_by simp_wf; omega

/-- Lines 98-107: the free-interval scan. `prev` is `prev_event_end`,
assigned `event_end` unconditionally after each busy interval (line 103
performs a plain assignment, not a maximum). -/
def deriveFree (prev wend : Nat) : List (Nat × Nat) → List (Nat × Nat)
  | [] => if prev < wend then [(prev, wend)] else []
  | (s, e) :: rest =>
    if prev < s then (prev, s) :: deriveFree e wend rest
    else deriveFree e wend rest

/-- The `while current_slot_start + timedelta(hours=1) <= end_time` loop of
lines 116-120: consecutive one-hour slots from `s` while they fit in `e`. -/
def splitSlots (s e : Nat) : List (Nat × Nat) :=
  if h : s + 3600 ≤ e then (s, s + 3600) :: splitSlots (s + 3600) e else []
termination_by e - s
decreasing_by simp_wf; omega

/-- Lines 111-120, for one free interval: keep an exactly-one-hour interval,
split a longer one, drop a shorter one. Both timedelta comparisons are
false in the source on an inverted interval (negative difference) and both
are false here (truncated subtraction gives zero). -/
def quantizeInterval : Nat × Nat → List (Nat × Nat)
  | (s, e) =>
    if e - s = 3600 then [(s, e)]
    else if 3600 < e - s then splitSlots s e
    else []

/-- Model of `calculate_free_slots` (lines 65-122), with the externally
fetched event list passed as a parameter in place of the network read. The
result is the returned `filtered_free_slots`; `.error` models the unhandled
`ValueError` escaping the function. -/
def calculate_free_slots (d : CivilDate) (events : List EventRecord) :
    Except Unit (List (Nat × Nat)) :=
  match occupiedSlotsOf events with
  | .error e => .error e
  | .ok occ =>
    let sortedOcc := occ.mergeSort tupleLe
    let free := deriveFree (workingStart d) (workingEnd d) sortedOcc
    .ok (free.flatMap quantizeInterval)

/-- A reminder override entry of the booking request body. -/
structure Reminder where
  method : String
  minutes : Nat
deriving DecidableEq, Repr

/-- The request body `add_event_to_calendar` constructs for the external
insert call (lines 139-157); `isoformat` rendering of the two datetimes is
kept as the timestamps themselves. -/
structure CalendarEventBody where
  summary : String
  description : String
  startDateTime : Nat
  startTimeZone : String
  endDateTime : Nat
  endTimeZone : String
  useDefaultReminders : Bool
  reminderOverrides : List Reminder
deriving DecidableEq, Repr

/-- Lines 139-157: the event body built from the selected slot. -/
def add_event_body (startT endT : Nat) (eventSummary : String) : CalendarEventBody :=
  { summary := eventSummary
    description := "A chance to meet up"
    startDateTime := startT
    startTimeZone := "Asia/Kolkata"
    endDateTime := endT
    endTimeZone := "Asia/Kolkata"
    useDefaultReminders := false
    reminderOverrides := [⟨"email", 24 * 60⟩, ⟨"popup", 10⟩] }

/-- What the booking step does with a selected slot: either the
`InvalidSlotError` outcome the spec describes, or the external write of a
request body. -/
inductive BookingOutcome where
  | invalidSlot
  | wrote (body : CalendarEventBody)
deriving DecidableEq, Repr

/-- Lines 199-214 of `main`: once a slot is selected, the source calls
`add_event_to_calendar(creds, start_time, end_time, e)` directly — no
`start < end` check, no duration check, no `InvalidSlotError` anywhere in
the source — so every selected slot leads to the external write. -/
def bookSelectedSlot (slot : Nat × Nat) (eventSummary : String) : BookingOutcome :=
  .wrote (add_event_body slot.1 slot.2 eventSummary)

/-- Modelled from the spec: the `overlaps` predicate of the Interval Model
in §4.1 (half-open semantics, `start < other.end AND other.start < end`);
the source has no interval class of its own. -/
def overlaps (a b : Nat × Nat) : Bool :=
  decide (a.1 < b.2) && decide (b.1 < a.2)

/-! ### Concrete scenario material -/

/-- Concrete day used by the scenario theorems. -/
def jan15 : CivilDate := ⟨2024, 1, 15⟩

/-- Seconds value of a wall-clock time on the scenario day. -/
def jan15At (h mi : Nat) : Nat := dtSeconds 2024 1 15 h mi 0

/-- Event record carrying both timestamps. -/
def mkEv (a b : String) : EventRecord := ⟨none, some a, some b⟩

/-- Boolean well-formedness of the pair a record contributes: the parsed
start is at most the parsed end (vacuously true for skipped records). -/
def parsedWellFormed (ev : EventRecord) : Bool :=
  match parsedPair ev with
  | some p => decide (p.1 ≤ p.2)
  | none => true

/-- The two busy events of the concrete scenario in §8 of the spec:
10:00-11:00 and 13:30-14:00. -/
def scenarioEvents : List EventRecord :=
  [mkEv "2024-01-15T10:00:00+05:30" "2024-01-15T11:00:00+05:30",
   mkEv "2024-01-15T13:30:00+05:30" "2024-01-15T14:00:00+05:30"]

/-- Two busy events that overlap each other, the second nested inside the
first: 10:00-12:00 and 10:30-11:00. -/
def nestedOverlapEvents : List EventRecord :=
  [mkEv "2024-01-15T10:00:00+05:30" "2024-01-15T12:00:00+05:30",
   mkEv "2024-01-15T10:30:00+05:30" "2024-01-15T11:00:00+05:30"]

/-- One busy event lying entirely after the working window: 18:00-19:00. -/
def eveningEvents : List EventRecord :=
  [mkEv "2024-01-15T18:00:00+05:30" "2024-01-15T19:00:00+05:30"]

/-- One record whose start string is present but fails to parse. -/
def malformedEvents : List EventRecord :=
  [mkEv "not-a-timestamp" "2024-01-15T11:00:00+05:30"]

/-- A record whose parsed end equals its parsed start (10:30-10:30). -/
def zeroLengthRecord : EventRecord :=
  mkEv "2024-01-15T10:30:00+05:30" "2024-01-15T10:30:00+05:30"

/-- A record whose parsed end precedes its parsed start (12:00 back to
10:00). -/
def invertedRecord : EventRecord :=
  mkEv "2024-01-15T12:00:00+05:30" "2024-01-15T10:00:00+05:30"

/-- Interval lists whose members start at or after `lo`, have positive
length, and follow one another without going back in time. -/
def chainedFrom (lo : Nat) : List (Nat × Nat) → Prop
  | [] => True
  | (a, b) :: rest => lo ≤ a ∧ a < b ∧ chainedFrom b rest

/-- Modelled from the claim under scrutiny: the variant quantizer that
omits the equal-duration branch of lines 112-113 and runs only the
splitting loop of lines 116-120. -/
def quantizeIntervalAlt : Nat × Nat → List (Nat × Nat)
  | (s, e) => splitSlots s e

instance : IsAntisymm (Nat × Nat) (fun a b => tupleLe a b = true) :=
  ⟨fun a b h1 h2 => by
    cases a
    cases b
    simp only [tupleLe, Bool.or_eq_true, Bool.and_eq_true, decide_eq_true_eq] at h1 h2
    simp only [Prod.mk.injEq]
    omega⟩

/-! ### Shared lemmas about the pipeline -/

/-- The occupied-slot loop either raises at some record or collects exactly
the pairs of the surviving records, in input order. -/
theorem occupiedSlotsOf_eq (evs : List EventRecord) :
    occupiedSlotsOf evs =
      if evs.any eventFatal then .error () else .ok (evs.filterMap parsedPair) := by
  induction evs with
  | nil => rfl
  | cons ev rest ih =>
    cases h : normalizeEvent ev with
    | error e =>
      cases e
      simp [occupiedSlotsOf, eventFatal, h]
    | ok p =>
      cases p with
      | none => simp [occupiedSlotsOf, eventFatal, parsedPair, h, ih]
      | some q =>
        by_cases hf : rest.any eventFatal = true
        · simp [occupiedSlotsOf, eventFatal, parsedPair, h, ih, hf, Except.map]
        · simp [occupiedSlotsOf, eventFatal, parsedPair, h, ih, hf, Except.map]

theorem tupleLe_trans (a b c : Nat × Nat) (h1 : tupleLe a b = true)
    (h2 : tupleLe b c = true) : tupleLe a c = true := by
  simp only [tupleLe, Bool.or_eq_true, Bool.and_eq_true, decide_eq_true_eq] at *
  omega

theorem tupleLe_total (a b : Nat × Nat) : (tupleLe a b || tupleLe b a) = true := by
  simp only [tupleLe, Bool.or_eq_true, Bool.and_eq_true, decide_eq_true_eq]
  omega

/-- Sorting with the Python tuple order gives the same list for any two
permutations of the same input. -/
theorem mergeSort_eq_of_perm {l l' : List (Nat × Nat)} (h : l.Perm l') :
    l.mergeSort tupleLe = l'.mergeSort tupleLe := by
  have s1 : List.Sorted (fun a b : Nat × Nat => tupleLe a b = true) (l.mergeSort tupleLe) :=
    List.sorted_mergeSort tupleLe_trans tupleLe_total l
  have s2 : List.Sorted (fun a b : Nat × Nat => tupleLe a b = true) (l'.mergeSort tupleLe) :=
    List.sorted_mergeSort tupleLe_trans tupleLe_total l'
  exact List.eq_of_perm_of_sorted
    ((l.mergeSort_perm tupleLe).trans (h.trans (l'.mergeSort_perm tupleLe).symm)) s1 s2

/-- After the sort of line 87, start times are nondecreasing. -/
theorem mergeSort_starts_pairwise (l : List (Nat × Nat)) :
    List.Pairwise (fun a b : Nat × Nat => a.1 ≤ b.1) (l.mergeSort tupleLe) := by
  refine (List.sorted_mergeSort tupleLe_trans tupleLe_total l).imp ?_
  intro a b hab
  simp only [tupleLe, Bool.or_eq_true, Bool.and_eq_true, decide_eq_true_eq] at hab
  omega

/-- Closed form of the slot-splitting loop: the floor of the duration over
the quantum many consecutive one-hour slots, starting at the left end. -/
theorem splitSlots_eq (s e : Nat) :
    splitSlots s e =
      (List.range ((e - s) / 3600)).map (fun i => (s + 3600 * i, s + 3600 * (i + 1))) := by
  rw [splitSlots]
  split
  next h =>
    rw [splitSlots_eq (s + 3600) e]
    have h1 : (e - s) / 3600 = (e - (s + 3600)) / 3600 + 1 := by
      rw [Nat.div_eq_sub_div (by omega) (by omega : 3600 ≤ e - s)]
      have h2 : e - s - 3600 = e - (s + 3600) := by omega
      rw [h2]
    rw [h1, List.range_succ_eq_map, List.map_cons, List.map_map]
    have h3 : (fun i => (s + 3600 + 3600 * i, s + 3600 + 3600 * (i + 1))) =
        ((fun i => (s + 3600 * i, s + 3600 * (i + 1))) ∘ Nat.succ) := by
      funext i
      simp only [Function.comp_apply, Nat.succ_eq_add_one, Prod.mk.injEq]
      omega
    rw [h3]
    simp
  next h =>
    rw [Nat.div_eq_of_lt (by omega)]
    rfl
termination_by e - s
decreasing_by simp_wf; omega

/-- The equal-duration branch of lines 112-113 agrees with the splitting
loop, so the quantizer is the splitting loop on every interval. -/
theorem quantizeInterval_eq_split (s e : Nat) :
    quantizeInterval (s, e) = splitSlots s e := by
  rw [quantizeInterval]
  split
  next h =>
    have he : e = s + 3600 := by omega
    subst he
    have h1 : (s + 3600 - s) / 3600 = 1 := by omega
    rw [splitSlots_eq, h1, show List.range 1 = [0] from rfl]
    simp
  next h =>
    split
    next => rfl
    next h2 =>
      rw [splitSlots_eq, Nat.div_eq_of_lt (by omega)]
      rfl

theorem chainedFrom_mono {lo lo' : Nat} (h : lo' ≤ lo) :
    ∀ l : List (Nat × Nat), chainedFrom lo l → chainedFrom lo' l := by
  intro l hc
  cases l with
  | nil => simp only [chainedFrom]
  | cons p rest =>
    obtain ⟨a, b⟩ := p
    simp only [chainedFrom] at hc ⊢
    exact ⟨le_trans h hc.1, hc.2.1, hc.2.2⟩

/-- The free-interval scan yields a chained list whenever the busy list is
sorted by start and free of inverted intervals; `lo` is any lower bound of
the cursor and of every busy start. -/
theorem deriveFree_chained (wend : Nat) :
    ∀ (busy : List (Nat × Nat)) (prev lo : Nat),
      (∀ p ∈ busy, p.1 ≤ p.2) →
      List.Pairwise (fun a b : Nat × Nat => a.1 ≤ b.1) busy →
      (∀ p ∈ busy, lo ≤ p.1) →
      lo ≤ prev →
      chainedFrom lo (deriveFree prev wend busy) := by
  intro busy
  induction busy with
  | nil =>
    intro prev lo _ _ _ hlp
    simp only [deriveFree]
    split
    next h =>
      simp only [chainedFrom]
      exact ⟨hlp, h, trivial⟩
    next => simp only [chainedFrom]
  | cons p rest ih =>
    obtain ⟨s, e⟩ := p
    intro prev lo hwf hpw hlo hlp
    have hse : s ≤ e := hwf (s, e) (by simp)
    have hrestwf : ∀ q ∈ rest, q.1 ≤ q.2 := fun q hq => hwf q (List.mem_cons_of_mem _ hq)
    have hrestpw := List.Pairwise.of_cons hpw
    have hheads : ∀ q ∈ rest, s ≤ q.1 := fun q hq => (List.pairwise_cons.mp hpw).1 q hq
    simp only [deriveFree]
    split
    next hgt =>
      simp only [chainedFrom]
      exact ⟨hlp, hgt, ih e s hrestwf hrestpw hheads hse⟩
    next hle =>
      have hlos : lo ≤ s := hlo (s, e) (by simp)
      exact ih e lo hrestwf hrestpw (fun q hq => le_trans hlos (hheads q hq)) (le_trans hlos hse)

/-- Every slot the splitting loop emits starts at or after `s`, lasts
exactly one hour, and ends by `e`. -/
theorem splitSlots_mem (s e : Nat) :
    ∀ q ∈ splitSlots s e, s ≤ q.1 ∧ q.2 = q.1 + 3600 ∧ q.2 ≤ e := by
  intro q hq
  rw [splitSlots_eq] at hq
  simp only [List.mem_map, List.mem_range] at hq
  obtain ⟨i, hi, rfl⟩ := hq
  refine ⟨by omega, by omega, ?_⟩
  have h1 : (i + 1) * 3600 ≤ ((e - s) / 3600) * 3600 := by
    exact Nat.mul_le_mul_right 3600 (by omega)
  have h2 : ((e - s) / 3600) * 3600 ≤ e - s := Nat.div_mul_le_self _ _
  omega

theorem splitSlots_pairwise (s e : Nat) :
    List.Pairwise (fun p q : Nat × Nat => p.2 ≤ q.1) (splitSlots s e) := by
  rw [splitSlots_eq, List.pairwise_map]
  refine (List.pairwise_lt_range _).imp ?_
  intro i j hij
  omega

/-- Slot facts transferred to the quantizer branch structure. -/
theorem quantizeInterval_mem (a b : Nat) :
    ∀ q ∈ quantizeInterval (a, b), a ≤ q.1 ∧ q.2 = q.1 + 3600 ∧ q.2 ≤ b := by
  rw [quantizeInterval_eq_split]
  exact splitSlots_mem a b

/-- Quantizing a chained free-interval list gives one-hour slots that never
precede `lo` and are mutually ordered and disjoint. -/
theorem flatMap_quantize_facts :
    ∀ (free : List (Nat × Nat)) (lo : Nat), chainedFrom lo free →
      (∀ q ∈ free.flatMap quantizeInterval, lo ≤ q.1 ∧ q.2 = q.1 + 3600) ∧
      List.Pairwise (fun p q : Nat × Nat => p.2 ≤ q.1) (free.flatMap quantizeInterval) := by
  intro free
  induction free with
  | nil =>
    intro lo _
    constructor
    · intro q hq
      simp at hq
    · simp
  | cons p rest ih =>
    obtain ⟨a, b⟩ := p
    intro lo hc
    simp only [chainedFrom] at hc
    obtain ⟨hla, hab, hcrest⟩ := hc
    have ihr := ih b hcrest
    simp only [List.flatMap_cons]
    constructor
    · intro q hq
      rcases List.mem_append.mp hq with hq1 | hq2
      · have hm := quantizeInterval_mem a b q hq1
        exact ⟨le_trans hla hm.1, hm.2.1⟩
      · have hm := ihr.1 q hq2
        exact ⟨le_trans (le_trans hla hab.le) hm.1, hm.2⟩
    · rw [List.pairwise_append]
      refine ⟨?_, ihr.2, ?_⟩
      · rw [quantizeInterval_eq_split]
        exact splitSlots_pairwise a b
      · intro x hx y hy
        exact le_trans (quantizeInterval_mem a b x hx).2.2 (ihr.1 y hy).1

/-- Closed form of the quantizer as a function, for rewriting the loop away
in concrete computations. -/
theorem quantizeInterval_fun_eq :
    quantizeInterval = fun p : Nat × Nat =>
      (List.range ((p.2 - p.1) / 3600)).map (fun i => (p.1 + 3600 * i, p.1 + 3600 * (i + 1))) :=
  funext fun p => by
    obtain ⟨s, e⟩ := p
    rw [quantizeInterval_eq_split, splitSlots_eq]

/-- Unfolds the pipeline once the parse stage is known to succeed. -/
theorem calculate_free_slots_ok (d : CivilDate) (evs : List EventRecord)
    (occ : List (Nat × Nat)) (h : occupiedSlotsOf evs = .ok occ) :
    calculate_free_slots d evs =
      .ok ((deriveFree (workingStart d) (workingEnd d)
        (occ.mergeSort tupleLe)).flatMap quantizeInterval) := by
  rw [calculate_free_slots, h]

/-- The parse-stage error propagates out of the pipeline. -/
theorem calculate_free_slots_error (d : CivilDate) (evs : List EventRecord)
    (h : occupiedSlotsOf evs = .error ()) :
    calculate_free_slots d evs = .error () := by
  rw [calculate_free_slots, h]

/-! ### Claim theorems -/

/-- C1, failing evaluation: with the two mutually overlapping busy inputs
10:00-12:00 and 10:30-11:00 (already in sorted order), the scan of lines
98-107 moves the cursor backward from 12:00 to 11:00 at the nested second
interval, and the derived free-interval list is 09:00-10:00, 11:00-17:00 —
whose second member overlaps the busy input 10:00-12:00 under the half-open
`overlaps` predicate. This refutes the overlap-safety claim. -/
theorem c1_overlap_safety_violation :
    occupiedSlotsOf nestedOverlapEvents =
      .ok [(jan15At 10 0, jan15At 12 0), (jan15At 10 30, jan15At 11 0)] ∧
    deriveFree (workingStart jan15) (workingEnd jan15)
        (([(jan15At 10 0, jan15At 12 0), (jan15At 10 30, jan15At 11 0)]).mergeSort tupleLe) =
      [(jan15At 9 0, jan15At 10 0), (jan15At 11 0, jan15At 17 0)] ∧
    overlaps (jan15At 11 0, jan15At 17 0) (jan15At 10 0, jan15At 12 0) = true ∧
    overlaps (jan15At 10 0, jan15At 12 0) (jan15At 10 30, jan15At 11 0) = true := by
  refine ⟨rfl, ?_, by decide, by decide⟩
  rw [List.mergeSort_of_sorted (by decide)]
  decide

/-- C2, failing evaluation: with the single busy input 18:00-19:00, which
lies entirely outside the 09:00-17:00 window, the pipeline returns a slot
list containing the slot 17:00-18:00, which ends after the working-window
end. This refutes the window-containment claim. -/
theorem c2_window_containment_violation :
    ∃ l, calculate_free_slots jan15 eveningEvents = .ok l ∧
      (jan15At 17 0, jan15At 18 0) ∈ l ∧ workingEnd jan15 < jan15At 18 0 := by
  refine ⟨_, calculate_free_slots_ok jan15 eveningEvents
    [(jan15At 18 0, jan15At 19 0)] rfl, ?_, by decide⟩
  rw [List.mergeSort_of_sorted (by decide), quantizeInterval_fun_eq]
  decide

/-- C3, counterexample: a record whose start string is present but fails to
parse makes the whole computation abort with the propagated parse error; no
slot list is returned, refuting the claim that such a record is skipped and
the computation still completes. -/
theorem c3_parse_failure_aborts :
    calculate_free_slots jan15 malformedEvents = .error () :=
  calculate_free_slots_error jan15 malformedEvents rfl

/-- C3 amended: the computation completes with a slot list exactly when no
record is fatal, where a record is fatal precisely when both of its
timestamp strings are present (and nonempty) and at least one fails to
parse; a record with a missing or empty timestamp is never fatal and
contributes no busy interval (it is skipped). -/
theorem c3_amended_missing_skipped_malformed_fatal (d : CivilDate) (evs : List EventRecord) :
    ((∃ l, calculate_free_slots d evs = .ok l) ↔ ∀ ev ∈ evs, eventFatal ev = false) ∧
    (∀ ev : EventRecord,
      pyTruthy ev.startDateTime = false ∨ pyTruthy ev.endDateTime = false →
      eventFatal ev = false ∧ parsedPair ev = none) := by
  constructor
  · constructor
    · rintro ⟨l, hl⟩ ev hev
      by_contra hne
      have hfatal : evs.any eventFatal = true :=
        List.any_eq_true.mpr ⟨ev, hev, by simpa using hne⟩
      rw [calculate_free_slots, occupiedSlotsOf_eq, hfatal] at hl
      simp at hl
    · intro hall
      have hnofatal : evs.any eventFatal = false := by
        cases hb : evs.any eventFatal
        · rfl
        · obtain ⟨x, hx, hfx⟩ := List.any_eq_true.mp hb
          rw [hall x hx] at hfx
          cases hfx
      have hocc : occupiedSlotsOf evs = .ok (evs.filterMap parsedPair) := by
        rw [occupiedSlotsOf_eq, hnofatal]
        rfl
      exact ⟨_, calculate_free_slots_ok d evs _ hocc⟩
  · intro ev hmiss
    have h : normalizeEvent ev = .ok none := by
      rw [normalizeEvent]
      rcases hmiss with h1 | h1 <;> simp [h1]
    simp [eventFatal, parsedPair, h]

/-- Witness for the C3 amended theorem: a record with both timestamps
missing is skipped and the computation completes. -/
theorem c3_amended_witness :
    ∃ l, calculate_free_slots jan15 [⟨some "No explicit time", none, none⟩] = .ok l :=
  (c3_amended_missing_skipped_malformed_fatal jan15
    [⟨some "No explicit time", none, none⟩]).1.mpr (by decide)

/-- C4, counterexample: the record 10:30-10:30 parses to a pair with end
equal to start, yet the pipeline output with this record differs from the
output without it (the afternoon slots shift by half an hour), refuting the
claim that such a record is excluded and has no effect. -/
theorem c4_inverted_not_skipped_counterexample :
    parsedPair zeroLengthRecord = some (jan15At 10 30, jan15At 10 30) ∧
    calculate_free_slots jan15 [zeroLengthRecord] ≠ calculate_free_slots jan15 [] := by
  refine ⟨rfl, ?_⟩
  intro h
  rw [calculate_free_slots_ok jan15 [zeroLengthRecord]
        [(jan15At 10 30, jan15At 10 30)] rfl,
      calculate_free_slots_ok jan15 [] [] rfl,
      List.mergeSort_of_sorted (by decide),
      List.mergeSort_of_sorted (by decide), quantizeInterval_fun_eq] at h
  injection h with h'
  exact absurd h' (by decide)

/-- C4 amended: the normalization loop performs no end-before-start check:
every record whose two timestamps parse contributes its pair to the
occupied-slot list, inverted or not, and such a record can change the
output slot list (see the counterexample). -/
theorem c4_amended_no_inverted_filter (evs : List EventRecord) (ev : EventRecord)
    (p : Nat × Nat) (hev : ev ∈ evs) (hp : parsedPair ev = some p)
    (occ : List (Nat × Nat)) (hocc : occupiedSlotsOf evs = .ok occ) :
    p ∈ occ := by
  rw [occupiedSlotsOf_eq] at hocc
  cases hf : evs.any eventFatal
  · rw [hf] at hocc
    simp only [Bool.false_eq_true, if_false, Except.ok.injEq] at hocc
    subst hocc
    exact List.mem_filterMap.mpr ⟨ev, hev, hp⟩
  · rw [hf] at hocc
    simp at hocc

/-- Witness for the C4 amended theorem at the zero-length record. -/
theorem c4_amended_witness :
    (jan15At 10 30, jan15At 10 30) ∈ [(jan15At 10 30, jan15At 10 30)] :=
  c4_amended_no_inverted_filter [zeroLengthRecord] zeroLengthRecord
    (jan15At 10 30, jan15At 10 30) (List.mem_singleton.mpr rfl) rfl
    [(jan15At 10 30, jan15At 10 30)] rfl

/-- C5, counterexample: handed a 45-minute slot, the booking step of the
source performs the external write with that slot unchanged and raises no
invalid-slot failure, refuting the claim that it fails with
`InvalidSlotError` and attempts no write. -/
theorem c5_no_validation_counterexample :
    bookSelectedSlot (jan15At 9 0, jan15At 9 45) "Team sync" =
      .wrote (add_event_body (jan15At 9 0) (jan15At 9 45) "Team sync") ∧
    jan15At 9 45 - jan15At 9 0 = 2700 ∧
    bookSelectedSlot (jan15At 9 0, jan15At 9 45) "Team sync" ≠ .invalidSlot := by
  decide

/-- C5 amended: the booking step re-validates nothing: for every selected
slot and summary it attempts the external write, and the request body
carries exactly the given slot bounds together with the fixed description,
timezone and reminder policy. -/
theorem c5_amended_always_writes (slot : Nat × Nat) (eventSummary : String) :
    bookSelectedSlot slot eventSummary =
      .wrote (add_event_body slot.1 slot.2 eventSummary) ∧
    (add_event_body slot.1 slot.2 eventSummary).startDateTime = slot.1 ∧
    (add_event_body slot.1 slot.2 eventSummary).endDateTime = slot.2 :=
  ⟨rfl, rfl, rfl⟩

/-- C6: on a free interval of duration D the quantizer emits nothing when
D is below one hour, and exactly floor of D over one hour many consecutive
one-hour sub-slots starting at the interval start when D is at least one
hour; the slot count is the floor in every case. -/
theorem c6_slot_quantizer_floor (s e : Nat) :
    (e - s < 3600 → quantizeInterval (s, e) = []) ∧
    (3600 ≤ e - s → quantizeInterval (s, e) =
      (List.range ((e - s) / 3600)).map (fun i => (s + 3600 * i, s + 3600 * (i + 1)))) ∧
    (quantizeInterval (s, e)).length = (e - s) / 3600 := by
  refine ⟨?_, ?_, ?_⟩
  · intro h
    rw [quantizeInterval_eq_split, splitSlots_eq, Nat.div_eq_of_lt h]
    rfl
  · intro _
    rw [quantizeInterval_eq_split, splitSlots_eq]
  · rw [quantizeInterval_eq_split, splitSlots_eq]
    simp

/-- Witness for C6: a duration of one hour and thirty minutes yields
exactly the single slot of the first hour, and a 30-minute interval yields
nothing. -/
theorem c6_slot_quantizer_floor_witness :
    quantizeInterval (0, 5400) = [(0, 3600)] ∧ quantizeInterval (0, 1800) = [] := by
  constructor
  · have h := (c6_slot_quantizer_floor 0 5400).2.1 (by decide)
    rw [h]
    decide
  · exact (c6_slot_quantizer_floor 0 1800).1 (by decide)

/-- C7: the concrete scenario of §8. With busy inputs 10:00-11:00 and
13:30-14:00 on a 09:00-17:00 window, the parsed busy list, the derived free
intervals (09:00-10:00, 11:00-13:30, 14:00-17:00) and the final quantized
slot list (09-10, 11-12, 12-13, 14-15, 15-16, 16-17, in order) are exactly
as the spec states. -/
theorem c7_concrete_scenario :
    occupiedSlotsOf scenarioEvents =
      .ok [(jan15At 10 0, jan15At 11 0), (jan15At 13 30, jan15At 14 0)] ∧
    deriveFree (workingStart jan15) (workingEnd jan15)
        (([(jan15At 10 0, jan15At 11 0), (jan15At 13 30, jan15At 14 0)]).mergeSort tupleLe) =
      [(jan15At 9 0, jan15At 10 0), (jan15At 11 0, jan15At 13 30), (jan15At 14 0, jan15At 17 0)] ∧
    calculate_free_slots jan15 scenarioEvents =
      .ok [(jan15At 9 0, jan15At 10 0), (jan15At 11 0, jan15At 12 0),
           (jan15At 12 0, jan15At 13 0), (jan15At 14 0, jan15At 15 0),
           (jan15At 15 0, jan15At 16 0), (jan15At 16 0, jan15At 17 0)] := by
  refine ⟨rfl, ?_, ?_⟩
  · rw [List.mergeSort_of_sorted (by decide)]
    decide
  · rw [calculate_free_slots_ok jan15 scenarioEvents
          [(jan15At 10 0, jan15At 11 0), (jan15At 13 30, jan15At 14 0)] rfl,
        List.mergeSort_of_sorted (by decide), quantizeInterval_fun_eq]
    rfl

/-- C8, counterexample: the inverted record 12:00 back to 10:00 is not
filtered out, and on it the pipeline returns a slot list that is neither
strictly increasing nor non-overlapping (the slots 10-11 and 11-12 appear
twice), refuting the unconditional output invariant. -/
theorem c8_output_invariant_counterexample :
    ∃ l, calculate_free_slots jan15 [invertedRecord] = .ok l ∧
      ¬ List.Pairwise (fun p q : Nat × Nat => p.1 < q.1 ∧ p.2 ≤ q.1) l := by
  refine ⟨_, calculate_free_slots_ok jan15 [invertedRecord]
    [(jan15At 12 0, jan15At 10 0)] rfl, ?_⟩
  rw [List.mergeSort_of_sorted (by decide), quantizeInterval_fun_eq]
  decide

/-- C8 amended: whenever every record that parses yields a pair with start
at most end (in particular for all well-formed busy intervals, overlapping
or not), the returned slot list is strictly increasing, pairwise
non-overlapping under half-open semantics, and made of slots of exactly one
hour. -/
theorem c8_amended_output_invariant (d : CivilDate) (evs : List EventRecord)
    (hwf : ∀ ev ∈ evs, parsedWellFormed ev = true)
    (l : List (Nat × Nat)) (hl : calculate_free_slots d evs = .ok l) :
    (∀ q ∈ l, q.2 = q.1 + 3600) ∧
    List.Pairwise (fun p q : Nat × Nat => p.1 < q.1 ∧ p.2 ≤ q.1) l := by
  by_cases hf : evs.any eventFatal = true
  · rw [calculate_free_slots, occupiedSlotsOf_eq, hf] at hl
    simp at hl
  · have hfb : evs.any eventFatal = false := by
      cases hb : evs.any eventFatal
      · rfl
      · exact absurd hb hf
    have hocc : occupiedSlotsOf evs = .ok (evs.filterMap parsedPair) := by
      rw [occupiedSlotsOf_eq, hfb]
      rfl
    rw [calculate_free_slots_ok d evs _ hocc] at hl
    injection hl with hl'
    subst hl'
    have hwfocc : ∀ p ∈ (evs.filterMap parsedPair).mergeSort tupleLe, p.1 ≤ p.2 := by
      intro p hp
      have hp' : p ∈ evs.filterMap parsedPair :=
        (((evs.filterMap parsedPair).mergeSort_perm tupleLe).mem_iff).mp hp
      obtain ⟨ev, hev, hpe⟩ := List.mem_filterMap.mp hp'
      have hb := hwf ev hev
      simp only [parsedWellFormed, hpe] at hb
      exact of_decide_eq_true hb
    have hchain := deriveFree_chained (workingEnd d)
      ((evs.filterMap parsedPair).mergeSort tupleLe) (workingStart d) 0
      hwfocc (mergeSort_starts_pairwise _) (fun p _ => Nat.zero_le _) (Nat.zero_le _)
    have hfacts := flatMap_quantize_facts
      (deriveFree (workingStart d) (workingEnd d)
        ((evs.filterMap parsedPair).mergeSort tupleLe)) 0 hchain
    refine ⟨fun q hq => (hfacts.1 q hq).2, ?_⟩
    refine List.Pairwise.imp_of_mem ?_ hfacts.2
    intro a b ha hb hab
    have hda := (hfacts.1 a ha).2
    exact ⟨by omega, hab⟩

/-- Witness for the C8 amended theorem on the §8 scenario input. -/
theorem c8_amended_witness :
    (∀ q ∈ ([(jan15At 9 0, jan15At 10 0), (jan15At 11 0, jan15At 12 0),
             (jan15At 12 0, jan15At 13 0), (jan15At 14 0, jan15At 15 0),
             (jan15At 15 0, jan15At 16 0), (jan15At 16 0, jan15At 17 0)] : List (Nat × Nat)),
        q.2 = q.1 + 3600) ∧
    List.Pairwise (fun p q : Nat × Nat => p.1 < q.1 ∧ p.2 ≤ q.1)
      [(jan15At 9 0, jan15At 10 0), (jan15At 11 0, jan15At 12 0),
       (jan15At 12 0, jan15At 13 0), (jan15At 14 0, jan15At 15 0),
       (jan15At 15 0, jan15At 16 0), (jan15At 16 0, jan15At 17 0)] :=
  c8_amended_output_invariant jan15 scenarioEvents (by decide) _
    (by
      rw [calculate_free_slots_ok jan15 scenarioEvents
            [(jan15At 10 0, jan15At 11 0), (jan15At 13 30, jan15At 14 0)] rfl,
          List.mergeSort_of_sorted (by decide), quantizeInterval_fun_eq]
      rfl)

/-- C9: the variant quantizer that drops the dedicated equal-duration
branch and always runs the splitting loop agrees with the implemented
quantizer on every free interval. -/
theorem c9_equal_branch_redundant (p : Nat × Nat) :
    quantizeIntervalAlt p = quantizeInterval p := by
  obtain ⟨s, e⟩ := p
  rw [quantizeIntervalAlt, quantizeInterval_eq_split]

/-- C10: the pipeline is insensitive to the order of the input event
records: permuted inputs produce identical results, because the surviving
pairs are sorted before derivation (and fatality of some record is a
property of the set of records). -/
theorem c10_order_insensitive (d : CivilDate) (evs evs' : List EventRecord)
    (h : evs.Perm evs') :
    calculate_free_slots d evs = calculate_free_slots d evs' := by
  have hany : evs.any eventFatal = evs'.any eventFatal := by
    cases hb : evs'.any eventFatal
    · cases hb' : evs.any eventFatal
      · rfl
      · obtain ⟨x, hx, hfx⟩ := List.any_eq_true.mp hb'
        have hx' : evs'.any eventFatal = true :=
          List.any_eq_true.mpr ⟨x, h.mem_iff.mp hx, hfx⟩
        cases hx'.symm.trans hb
    · obtain ⟨x, hx, hfx⟩ := List.any_eq_true.mp hb
      exact List.any_eq_true.mpr ⟨x, h.mem_iff.mpr hx, hfx⟩
  cases hb : evs'.any eventFatal
  · have hocc : occupiedSlotsOf evs = .ok (evs.filterMap parsedPair) := by
      rw [occupiedSlotsOf_eq, hany, hb]
      rfl
    have hocc' : occupiedSlotsOf evs' = .ok (evs'.filterMap parsedPair) := by
      rw [occupiedSlotsOf_eq, hb]
      rfl
    rw [calculate_free_slots_ok d evs _ hocc, calculate_free_slots_ok d evs' _ hocc',
        mergeSort_eq_of_perm (h.filterMap parsedPair)]
  · have hocc : occupiedSlotsOf evs = .error () := by
      rw [occupiedSlotsOf_eq, hany, hb]
      rfl
    have hocc' : occupiedSlotsOf evs' = .error () := by
      rw [occupiedSlotsOf_eq, hb]
      rfl
    rw [calculate_free_slots_error d evs hocc, calculate_free_slots_error d evs' hocc']

/-- Witness for C10: swapping the two records of the §8 scenario leaves the
result unchanged. -/
theorem c10_order_insensitive_witness :
    calculate_free_slots jan15
      [mkEv "2024-01-15T13:30:00+05:30" "2024-01-15T14:00:00+05:30",
       mkEv "2024-01-15T10:00:00+05:30" "2024-01-15T11:00:00+05:30"] =
    calculate_free_slots jan15 scenarioEvents :=
  c10_order_insensitive jan15
    [mkEv "2024-01-15T13:30:00+05:30" "2024-01-15T14:00:00+05:30",
     mkEv "2024-01-15T10:00:00+05:30" "2024-01-15T11:00:00+05:30"]
    scenarioEvents (by decide)

end MeetingScheduler
